import Mathlib

/-!
Verification development for the ingestion-and-normalization pipeline of the
steel-routes dashboard (function `load_data` in `src/app.py`).

The pipeline is embedded shallowly:

* bytes are `List Nat` (each entry is one byte);
* the decoded text and all intermediate strings are Lean `String`s;
* a parsed table is a `Table`: a header (list of column names) plus rows
  (lists of `Cell`s);
* float64 values are modelled as exact decimals (`Dec`: an integer mantissa
  with a power-of-ten denominator, kept in a canonical trailing-zero-free
  form).  `Dec.toRat` gives their rational value for statements.  The exponent
  form in `repr` output (Python uses it for magnitudes outside
  [1e-4, 1e16)) is not modelled; all concrete inputs below stay far inside
  the plain-decimal regime.
* pandas behaviour (`read_csv` with `sep=","` and `engine="python"`,
  `replace`, `astype(str)`, string methods, `to_numeric(errors="coerce")`,
  boolean-mask row filtering, column division) is translated for the exact
  configuration used by the source.  CSV quoting, duplicate-header mangling
  and the python-engine index-column inference are outside the behaviour the
  source data exercises and are not modelled: rows with more fields than the
  header are a parse error, and fields are split on plain commas.
-/

/-- Exact decimal number: value is `n / 10 ^ e`.  Canonical form (produced by
`Dec.normAux`) has `e = 0` or a mantissa not divisible by 10, so structural
equality coincides with value equality on the cells the pipeline builds. -/
structure Dec where
  n : Int
  e : Nat
deriving DecidableEq, Repr

/-- Strip factors of ten from the mantissa while the exponent is positive;
this is the canonical-form smart constructor for `Dec`. -/
def Dec.normAux : Int → Nat → Dec
  | n, 0 => ⟨n, 0⟩
  | n, e+1 =>
    if n = 0 then ⟨0, 0⟩
    else if n % 10 = 0 then Dec.normAux (n / 10) e
    else ⟨n, e+1⟩

/-- Rational value of a `Dec`. -/
def Dec.toRat (d : Dec) : ℚ := (d.n : ℚ) / 10 ^ d.e

/-- Division by the unit divisor 1000.0 (`ttpa -> Mtpa`, `src/app.py` line
250 and 290), exact on decimals. -/
def Dec.div1000 (d : Dec) : Dec := Dec.normAux d.n (d.e + 3)

/-- One field of a pandas data frame, as the pipeline can observe it:

* `str s`: a Python string in an object-dtype column;
* `int n`: an int64 entry (a column `read_csv` inferred as integer);
* `float d`: a finite float64 entry, as an exact decimal;
* `inf` / `ninf`: the float64 infinities;
* `nan`: float NaN, the ordinary missing marker (`np.nan`);
* `na`: the `pd.NA` marker that `df.replace("unknown", pd.NA)` inserts.

`nan` and `na` both count as the missing-value marker; they are kept apart
because `astype(str)` renders them differently (`"nan"` vs `"<NA>"`) and a
boolean mask containing `pd.NA` raises where one containing `np.nan`
does not. -/
inductive Cell
  | str (s : String)
  | int (n : Int)
  | float (d : Dec)
  | inf
  | ninf
  | nan
  | na
deriving DecidableEq, Repr

/-- The missing-value marker, in either of its two concrete forms. -/
def Cell.isMissing : Cell → Bool
  | .nan => true
  | .na => true
  | _ => false

/-- Characters that Python `str.strip()` / `str.rstrip()` remove (the
`str.isspace` set, restricted to code points that can appear here). -/
def pyIsSpace (c : Char) : Bool :=
  c = ' ' ∨ c = '\t' ∨ c = '\n' ∨ c = '\r' ∨
  c = (Char.ofNat 0x0b) ∨ c = (Char.ofNat 0x0c) ∨
  c = (Char.ofNat 0x1c) ∨ c = (Char.ofNat 0x1d) ∨
  c = (Char.ofNat 0x1e) ∨ c = (Char.ofNat 0x1f) ∨
  c = (Char.ofNat 0x85) ∨ c = (Char.ofNat 0xa0) ∨
  c = (Char.ofNat 0x1680) ∨
  ((Char.ofNat 0x2000) ≤ c ∧ c ≤ (Char.ofNat 0x200a)) ∨
  c = (Char.ofNat 0x2028) ∨ c = (Char.ofNat 0x2029) ∨
  c = (Char.ofNat 0x202f) ∨ c = (Char.ofNat 0x205f) ∨
  c = (Char.ofNat 0x3000)

/-- Drop leading characters satisfying `p`. -/
def dropLeading (p : Char → Bool) (cs : List Char) : List Char :=
  cs.dropWhile p

/-- Drop trailing characters satisfying `p`. -/
def dropTrailing (p : Char → Bool) (cs : List Char) : List Char :=
  (cs.reverse.dropWhile p).reverse

/-- Python `str.strip()`. -/
def pyStrip (s : String) : String :=
  String.mk (dropLeading pyIsSpace (dropTrailing pyIsSpace s.data))

/-- Python `str.rstrip()`. -/
def pyRstrip (s : String) : String :=
  String.mk (dropTrailing pyIsSpace s.data)

/-- Python `str.rstrip(";")`. -/
def pyRstripSemi (s : String) : String :=
  String.mk (dropTrailing (fun c => c = ';') s.data)

/-- Python `str.replace(".", "")`: remove every full stop
(`src/app.py` line 282). -/
def removeDots (s : String) : String :=
  String.mk (s.data.filter (fun c => c ≠ '.'))

/-- Python `str.lower()` for the ASCII range (enough for the literals the
parser compares against). -/
def lowerChar (c : Char) : Char :=
  if 'A' ≤ c ∧ c ≤ 'Z' then Char.ofNat (c.toNat + 32) else c

/-! ## Step 1: byte decoding (`src/app.py` lines 257-261) -/

/-- The CP1252 images of bytes 0x80-0x9F; the five unassigned bytes decode to
U+FFFD under `errors="replace"`. -/
def cp1252High (b : Nat) : Nat :=
  if b = 0x80 then 0x20ac else if b = 0x82 then 0x201a
  else if b = 0x83 then 0x0192 else if b = 0x84 then 0x201e
  else if b = 0x85 then 0x2026 else if b = 0x86 then 0x2020
  else if b = 0x87 then 0x2021 else if b = 0x88 then 0x02c6
  else if b = 0x89 then 0x2030 else if b = 0x8a then 0x0160
  else if b = 0x8b then 0x2039 else if b = 0x8c then 0x0152
  else if b = 0x8e then 0x017d else if b = 0x91 then 0x2018
  else if b = 0x92 then 0x2019 else if b = 0x93 then 0x201c
  else if b = 0x94 then 0x201d else if b = 0x95 then 0x2022
  else if b = 0x96 then 0x2013 else if b = 0x97 then 0x2014
  else if b = 0x98 then 0x02dc else if b = 0x99 then 0x2122
  else if b = 0x9a then 0x0161 else if b = 0x9b then 0x203a
  else if b = 0x9c then 0x0153 else if b = 0x9e then 0x017e
  else if b = 0x9f then 0x0178 else 0xfffd

/-- One byte under `bytes.decode("cp1252", errors="replace")`: a total map
from bytes to characters. -/
def cp1252Char (b : Nat) : Char :=
  if b < 0x80 then Char.ofNat b
  else if b ≤ 0x9f then Char.ofNat (cp1252High b)
  else if b ≤ 0xff then Char.ofNat b
  else Char.ofNat 0xfffd

/-- `bytes.decode("cp1252", errors="replace")`: total by construction. -/
def cp1252Replace (bs : List Nat) : String :=
  String.mk (bs.map cp1252Char)

/-- Is `b` a UTF-8 continuation byte (0x80-0xBF)? -/
def utf8Cont (b : Nat) : Bool := 0x80 ≤ b ∧ b ≤ 0xbf

/-- Strict UTF-8 decoding (`bytes.decode("utf-8")`): rejects truncated
sequences, overlong forms, surrogates and code points above U+10FFFF, like
the CPython strict codec. -/
def utf8Decode : List Nat → Option (List Char)
  | [] => some []
  | b1 :: rest =>
    if b1 ≤ 0x7f then
      (utf8Decode rest).map (fun cs => Char.ofNat b1 :: cs)
    else if 0xc2 ≤ b1 ∧ b1 ≤ 0xdf then
      match rest with
      | b2 :: rest2 =>
        if utf8Cont b2 then
          (utf8Decode rest2).map
            (fun cs => Char.ofNat ((b1 - 0xc0) * 0x40 + (b2 - 0x80)) :: cs)
        else none
      | [] => none
    else if 0xe0 ≤ b1 ∧ b1 ≤ 0xef then
      match rest with
      | b2 :: b3 :: rest3 =>
        let lo2 := if b1 = 0xe0 then 0xa0 else 0x80
        let hi2 := if b1 = 0xed then 0x9f else 0xbf
        if lo2 ≤ b2 ∧ b2 ≤ hi2 ∧ utf8Cont b3 then
          (utf8Decode rest3).map
            (fun cs =>
              Char.ofNat ((b1 - 0xe0) * 0x1000 + (b2 - 0x80) * 0x40 + (b3 - 0x80)) :: cs)
        else none
      | _ => none
    else if 0xf0 ≤ b1 ∧ b1 ≤ 0xf4 then
      match rest with
      | b2 :: b3 :: b4 :: rest4 =>
        let lo2 := if b1 = 0xf0 then 0x90 else 0x80
        let hi2 := if b1 = 0xf4 then 0x8f else 0xbf
        if lo2 ≤ b2 ∧ b2 ≤ hi2 ∧ utf8Cont b3 ∧ utf8Cont b4 then
          (utf8Decode rest4).map
            (fun cs =>
              Char.ofNat ((b1 - 0xf0) * 0x40000 + (b2 - 0x80) * 0x1000 +
                (b3 - 0x80) * 0x40 + (b4 - 0x80)) :: cs)
        else none
      | _ => none
    else none

/-- Step 1 of the pipeline: try UTF-8, fall back to CP1252 with replacement
(`try: ... decode("utf-8") except UnicodeDecodeError: ... decode("cp1252",
errors="replace")`).  Total: it always produces some text. -/
def decodeBytes (bs : List Nat) : String :=
  match utf8Decode bs with
  | some cs => String.mk cs
  | none => cp1252Replace bs

/-! ## Step 2: line repair (`src/app.py` lines 263-264) -/

/-- Characters at which Python `str.splitlines()` breaks (besides the CR LF
pair, which it consumes as a single break). -/
def pyLineBreak (c : Char) : Bool :=
  c = '\n' ∨ c = '\r' ∨
  c = (Char.ofNat 0x0b) ∨ c = (Char.ofNat 0x0c) ∨
  c = (Char.ofNat 0x1c) ∨ c = (Char.ofNat 0x1d) ∨
  c = (Char.ofNat 0x1e) ∨ c = (Char.ofNat 0x85) ∨
  c = (Char.ofNat 0x2028) ∨ c = (Char.ofNat 0x2029)

/-- Worker for `pySplitLines`: `acc` is the current line, reversed. -/
def splitLinesAux : List Char → List Char → List String
  | [], acc => if acc.isEmpty then [] else [String.mk acc.reverse]
  | '\r' :: '\n' :: rest, acc => String.mk acc.reverse :: splitLinesAux rest []
  | c :: rest, acc =>
    if pyLineBreak c then String.mk acc.reverse :: splitLinesAux rest []
    else splitLinesAux rest (c :: acc)

/-- Python `str.splitlines()`: no trailing empty line after a final
terminator, empty string gives no lines. -/
def pySplitLines (s : String) : List String :=
  splitLinesAux s.data []

/-- Join with a line feed (Python `"\n".join(...)`). -/
def joinNl (ls : List String) : String :=
  String.intercalate "\n" ls

/-- Step 2: `[line.rstrip().rstrip(";") for line in raw_text.splitlines()]`
reassembled with `"\n".join`. -/
def cleanText (s : String) : String :=
  joinNl ((pySplitLines s).map (fun l => pyRstripSemi (pyRstrip l)))

/-! ## pandas numeric string conversion (`floatify` / `precise_xstrtod`)

Both `pd.to_numeric` and the `read_csv` column type inference convert
candidate strings through the pandas C routine `floatify`
(`parse_helper.h`): it runs `precise_xstrtod` over the whole string and,
when that fails, accepts exactly the four literals `inf`, `Infinity`,
`-inf`, `-Infinity` by whole-string case-sensitive comparison.  Unlike
Python `float`, this parser rejects underscored digit strings, flags
ERANGE when the effective decimal exponent exceeds 308 (so `1e999`
coerces to NaN, not infinity), and multiplies a value with an in-range
exponent but out-of-float64-range magnitude into an infinity without an
error (so `9e308` coerces to infinity).  Mantissa values are kept exact
here (the declared idealization of float64); the 17-digit-window
bookkeeping is modelled where it changes the outcome (the ERANGE check),
and the overflow-to-infinity threshold is the exact IEEE
round-to-nearest boundary `(2 ^ 54 - 1) * 2 ^ 970`. -/

/-- Read an optional leading sign; `true` means negative. -/
def readSign : List Char → Bool × List Char
  | '+' :: rest => (false, rest)
  | '-' :: rest => (true, rest)
  | cs => (false, cs)

/-- Split a leading run of ASCII digits from the rest. -/
def spanDigits : List Char → List Char × List Char
  | [] => ([], [])
  | c :: rest =>
    if c.isDigit then
      let p := spanDigits rest
      (c :: p.1, p.2)
    else ([], c :: rest)

/-- Numeric value of a digit run. -/
def digitsToNat (ds : List Char) : Nat :=
  ds.foldl (fun a c => a * 10 + (c.toNat - '0'.toNat)) 0

/-- ASCII whitespace, the set `isspace_ascii` skips in pandas parsing. -/
def asciiSpace (c : Char) : Bool :=
  c = ' ' ∨ c = '\t' ∨ c = '\n' ∨ c = (Char.ofNat 0x0b) ∨
  c = (Char.ofNat 0x0c) ∨ c = '\r'

/-- Build the decimal `m * 10 ^ e10`. -/
def decOfSci (m : Int) (e10 : Int) : Dec :=
  match e10 with
  | .ofNat k => Dec.normAux (m * (10 : Int) ^ k) 0
  | .negSucc k => Dec.normAux m (k + 1)

/-- What a pandas numeric-string conversion can produce. -/
inductive PyFloat
  | finite (d : Dec)
  | pinf
  | ninf
deriving DecidableEq, Repr

/-- The smallest exact magnitude that rounds to a float64 infinity (the
IEEE round-to-nearest overflow boundary, halfway between the largest
finite float64 and `2 ^ 1024`): the exact value of
`(2 ^ 54 - 1) * 2 ^ 970`, written out as a literal so that it reduces
without deep recursion. -/
def floatOverflowBound : Int :=
  179769313486231580793728971405303415079934132710037826936173778980444968292764750946649017977587207096330286416692887910946555547851940402630657488671505820681908902000708383676273854845817711531764475730270069855571366959622842914819860834936475292719074168444365510704342711559699508093042880177904174497792

theorem floatOverflowBound_eq : floatOverflowBound = (2 ^ 54 - 1) * 2 ^ 970 := by
  norm_num [floatOverflowBound]

/-- Does this exact decimal lie beyond the float64 range, so that the
parser arithmetic produces an infinity? -/
def Dec.overflows (d : Dec) : Bool :=
  decide (floatOverflowBound * (10 : Int) ^ d.e ≤ (d.n.natAbs : Int))

/-- The exponent tail of `precise_xstrtod`: after the mantissa, an
optional `e`/`E` with an optional sign and at most 17 digits, then
optional trailing ASCII whitespace; any other leftover character fails
the whole parse (the string must be fully consumed).  Returns the decimal
exponent, 0 when absent. -/
def xstrtodExpTail (cs : List Char) : Option Int :=
  match cs with
  | [] => some 0
  | c :: rest =>
    if c = 'e' ∨ c = 'E' then
      let sp := readSign rest
      let pd := spanDigits sp.2
      if pd.1.isEmpty ∨ 17 < pd.1.length ∨ ¬ (pd.2.dropWhile asciiSpace).isEmpty then
        none
      else
        some (if sp.1 then -(digitsToNat pd.1 : Int) else (digitsToNat pd.1 : Int))
    else if (cs.dropWhile asciiSpace).isEmpty then some 0
    else none

/-- `precise_xstrtod` up to the range check: leading ASCII whitespace, an
optional single sign, integer digits with an optional fractional part (at
least one digit in the mantissa, no underscores), then the exponent tail.
The parser accumulates at most 17 mantissa digits and tracks the rest in
its exponent bookkeeping; an effective decimal exponent beyond 308 is an
ERANGE error (`none`).  The returned value is the exact decimal. -/
def xstrtodDec (cs : List Char) : Option Dec :=
  let sp := readSign (cs.dropWhile asciiSpace)
  let p1 := spanDigits sp.2
  let fr : List Char × List Char :=
    match p1.2 with
    | '.' :: r =>
      let p2 := spanDigits r
      (p2.1, p2.2)
    | r => ([], r)
  if p1.1.isEmpty ∧ fr.1.isEmpty then none
  else
    match xstrtodExpTail fr.2 with
    | none => none
    | some ev =>
      let intLen := p1.1.length
      let fracConsumed := min fr.1.length (17 - min intLen 17)
      let bookExp : Int := (intLen : Int) - (min intLen 17 : Nat) - (fracConsumed : Int) + ev
      if 308 < bookExp then none
      else
        let m : Int := (digitsToNat (p1.1 ++ fr.1) : Int)
        some (decOfSci (if sp.1 then -m else m) (ev - (fr.1.length : Int)))

/-- `precise_xstrtod` as `to_double` observes it: a parsed value inside
the float64 range stays finite; one beyond it becomes a signed
infinity (the multiplication overflows with no error flag). -/
def xstrtod (cs : List Char) : Option PyFloat :=
  match xstrtodDec cs with
  | none => none
  | some d =>
    if d.overflows = true then some (if d.n < 0 then PyFloat.ninf else PyFloat.pinf)
    else some (.finite d)

/-- pandas `floatify`: run the string parser on the whole string; when it
fails, accept exactly the literals `inf`, `Infinity`, `-inf`,
`-Infinity` (whole-string, case-sensitive comparison); everything else
raises `ValueError`, modelled as `none`. -/
def floatify (s : String) : Option PyFloat :=
  match xstrtod s.data with
  | some v => some v
  | none =>
    if s = "inf" ∨ s = "Infinity" then some PyFloat.pinf
    else if s = "-inf" ∨ s = "-Infinity" then some PyFloat.ninf
    else none

/-- `pd.to_numeric(x, errors="coerce")` on one string: a failed parse
lands on float NaN, the missing marker. -/
def toNumericCell (s : String) : Cell :=
  match floatify s with
  | some (.finite d) => .float d
  | some .pinf => .inf
  | some .ninf => .ninf
  | none => .nan

/-- Step 6 on one field already rendered to text: trim, strip full stops,
coerce (`.str.strip().str.replace(".", "", regex=False)` then
`pd.to_numeric(errors="coerce")`, `src/app.py` lines 278-284). -/
def coerceString (s : String) : Cell :=
  toNumericCell (removeDots (pyStrip s))

/-! ## Rendering cells back to text (`astype(str)` and
`df["Country"].astype(str)`) -/

/-- Decimal digits of `|n|` with the point inserted `e` places from the
right, zero-padded like Python float repr (`0.1`, `0.05`, `10.5`). -/
def insertPoint (ds : List Char) (e : Nat) : List Char :=
  if ds.length ≤ e then '0' :: '.' :: (List.replicate (e - ds.length) '0' ++ ds)
  else ds.take (ds.length - e) ++ '.' :: ds.drop (ds.length - e)

/-- Python `repr` of a finite float64 held as a canonical decimal.  Integral
values get a trailing `.0`; plain decimal form throughout (the scientific
form for extreme magnitudes is not modelled). -/
def floatRepr (d : Dec) : String :=
  if d.e = 0 then toString d.n ++ ".0"
  else (if d.n < 0 then "-" else "") ++ String.mk (insertPoint (toString d.n.natAbs).data d.e)

/-- Python `str(...)` of one pandas cell, as `astype(str)` produces it. -/
def cellToPyStr : Cell → String
  | .str s => s
  | .int n => toString n
  | .float d => floatRepr d
  | .inf => "inf"
  | .ninf => "-inf"
  | .nan => "nan"
  | .na => "<NA>"

/-! ## Step 3: `pd.read_csv(StringIO(cleaned_text), sep=",",
engine="python")` (`src/app.py` line 266) -/

/-- A parsed data frame: column names in order, and rows of cells.  Rows
built by `read_csv` always have exactly one cell per column. -/
structure Table where
  header : List String
  rows : List (List Cell)
deriving DecidableEq, Repr

/-- Split one CSV record at commas (fields are not trimmed and quoting is
not in scope). -/
def splitCommaAux : List Char → List Char → List String
  | [], acc => [String.mk acc.reverse]
  | c :: rest, acc =>
    if c = ',' then String.mk acc.reverse :: splitCommaAux rest []
    else splitCommaAux rest (c :: acc)

/-- Split a record line on commas. -/
def splitComma (s : String) : List String :=
  splitCommaAux s.data []

/-- Split the cleaned text at line feeds (the only terminators left after
step 2). -/
def splitNlAux : List Char → List Char → List String
  | [], acc => [String.mk acc.reverse]
  | c :: rest, acc =>
    if c = '\n' then String.mk acc.reverse :: splitNlAux rest []
    else splitNlAux rest (c :: acc)

/-- Split the cleaned text into lines. -/
def splitNl (s : String) : List String :=
  splitNlAux s.data []

/-- The default pandas NA sentinels (`STR_NA_VALUES`); fields equal to one of
these read as NaN. -/
def STR_NA_VALUES : List String :=
  ["", "#N/A", "#N/A N/A", "#NA", "-1.#IND", "-1.#QNAN", "-NaN", "-nan",
   "1.#IND", "1.#QNAN", "<NA>", "N/A", "NA", "NULL", "NaN", "None", "n/a",
   "nan", "null"]

/-- Is this field one of the NA sentinels? -/
def isNA (s : String) : Bool :=
  STR_NA_VALUES.contains s

/-- Does `floatify` accept the field (drives numeric-column inference)? -/
def numericStringQ (s : String) : Bool :=
  (floatify s).isSome

/-- The `maybe_int` flag of pandas parsing: the field is a pure integer
literal — optional ASCII-space padding, an optional sign, then digits only
(no underscores, no decimal point, no exponent) — so an all-integer column
infers to int64 rather than float64. -/
def isIntString (s : String) : Bool :=
  let sp := readSign (s.data.dropWhile asciiSpace)
  let p1 := spanDigits sp.2
  ¬ p1.1.isEmpty && (p1.2.dropWhile asciiSpace).isEmpty

/-- Integer value of a field accepted by `isIntString`. -/
def parsePyInt (s : String) : Int :=
  let sp := readSign (s.data.dropWhile asciiSpace)
  let v : Int := (digitsToNat (spanDigits sp.2).1 : Int)
  if sp.1 then -v else v

/-- The cell a numeric (float64) column stores for one field. -/
def floatCellOf (s : String) : Cell :=
  toNumericCell s

/-- Column dtype inference of `read_csv`: NA sentinels become NaN; a column
whose remaining fields are all integer literals becomes int64; all numeric,
float64; otherwise the column keeps its strings (object dtype).  Boolean
columns are not modelled (a `True`/`False` column stays object here; every
downstream observation the claims make is identical). -/
def inferColumn (vals : List String) : List Cell :=
  if vals.all (fun s => isNA s ∨ numericStringQ s) then
    if vals.all isIntString then
      vals.map (fun s => Cell.int (parsePyInt s))
    else
      vals.map (fun s => if isNA s then Cell.nan else floatCellOf s)
  else
    vals.map (fun s => if isNA s then Cell.nan else Cell.str s)

/-- The `j`-th field of every row (short rows were already padded). -/
def columnOf (rows : List (List String)) (j : Nat) : List String :=
  rows.map (fun r => r.getD j "")

/-- Assemble the inferred columns back into rows. -/
def inferTable (header : List String) (rows : List (List String)) : Table :=
  let cols := (List.range header.length).map (fun j => inferColumn (columnOf rows j))
  { header := header,
    rows := (List.range rows.length).map (fun i => cols.map (fun c => c.getD i Cell.nan)) }

/-- Step 3: parse the cleaned text.  Blank lines are skipped
(`skip_blank_lines` default), the first remaining line is the header, a row
with more fields than the header is a tokenizing error, and short rows are
padded with empty fields (which are NA sentinels). -/
def read_csv (text : String) : Except String Table :=
  let lines := (splitNl text).filter (fun l => ¬ l.isEmpty)
  match lines with
  | [] => .error "No columns to parse from file"
  | hline :: dataLines =>
    let header := splitComma hline
    let rawRows := dataLines.map splitComma
    if rawRows.any (fun r => header.length < r.length) then
      .error "Error tokenizing data"
    else
      .ok (inferTable header
        (rawRows.map (fun r => r ++ List.replicate (header.length - r.length) "")))

/-! ## Steps 4-8 (`src/app.py` lines 267-290) -/

/-- The RouteSchema source column names, in order (`ROUTE_COLS` keys,
`src/app.py` lines 246-249). -/
def ROUTE_COLS : List String :=
  ["Pig iron produced (ttpa)", "DRI produced (ttpa)"]

/-- `expected = ["Country", *ROUTE_COLS.keys()]` (`src/app.py` line 271). -/
def expectedCols : List String :=
  "Country" :: ROUTE_COLS

/-- `present = [c for c in expected if c in df.columns]`
(`src/app.py` line 272). -/
def presentOf (header : List String) : List String :=
  expectedCols.filter (fun c => header.contains c)

/-- Step 4 on one cell: `df.replace("unknown", pd.NA)` matches a whole cell
value, case-sensitively, without trimming (`src/app.py` line 269). -/
def replaceCell (c : Cell) : Cell :=
  if c = .str "unknown" then .na else c

/-- Step 4 on one row. -/
def replaceRow (r : List Cell) : List Cell :=
  r.map replaceCell

/-- Step 4 on the table. -/
def replaceUnknownT (t : Table) : Table :=
  ⟨t.header, t.rows.map replaceRow⟩

/-- The cell of the first column named `name` in this row (`df[name]`
selects by label; pipeline rows always carry one cell per header entry). -/
def colCell (header : List String) (r : List Cell) (name : String) : Option Cell :=
  (header.zip r).findSome? (fun p => if p.1 = name then some p.2 else none)

/-- Step 5 on one row: `df = df[present]` keeps the present expected columns
in schema order. -/
def projectRow (header : List String) (r : List Cell) : List Cell :=
  (presentOf header).map (fun nm => (colCell header r nm).getD Cell.nan)

/-- Step 5 on the table. -/
def projectT (t : Table) : Table :=
  ⟨presentOf t.header, t.rows.map (projectRow t.header)⟩

/-- Step 6 on one cell: render with `astype(str)`, strip, drop full stops,
coerce numerically. -/
def coerceCell (c : Cell) : Cell :=
  coerceString (cellToPyStr c)

/-- Step 6 on one row: only the RouteSchema columns are coerced
(`for col in ROUTE_COLS.keys(): ...`, `src/app.py` lines 275-284). -/
def coerceRow (header : List String) (r : List Cell) : List Cell :=
  (header.zip r).map (fun p => if ROUTE_COLS.contains p.1 then coerceCell p.2 else p.2)

/-- Step 6 on the table. -/
def coerceT (t : Table) : Table :=
  ⟨t.header, t.rows.map (coerceRow t.header)⟩

/-- The Country cell of a row, if there is a Country column. -/
def countryCell (header : List String) (r : List Cell) : Option Cell :=
  colCell header r "Country"

/-- Step 7 (`src/app.py` lines 286-287): when a Country column exists and
some entry of `df["Country"].astype(str)` equals `"Global"`, keep the rows
whose Country cell compares unequal to the string `"Global"`.  A `pd.NA`
in the compared column makes the boolean mask raise
(`Cannot mask with non-boolean array containing NA / NaN values`);
a float NaN compares unequal and is kept. -/
def dropGlobalT (t : Table) : Except String Table :=
  if t.header.contains "Country" &&
     t.rows.any (fun r => (countryCell t.header r).map cellToPyStr = some "Global") then
    if t.rows.any (fun r => countryCell t.header r = some Cell.na) then
      .error "Cannot mask with non-boolean array containing NA / NaN values"
    else
      .ok ⟨t.header,
        t.rows.filter (fun r => ¬ countryCell t.header r = some (Cell.str "Global"))⟩
  else
    .ok t

/-- Step 8 on one cell: float64 division by 1000.0.  Route columns hold only
to_numeric output here (float, infinity or NaN); the other constructors are
mapped as pandas would if they did occur (`int64 / float -> float64`,
NA passes through; `str` cannot be divided and is left untouched). -/
def divideCell : Cell → Cell
  | .int n => .float (Dec.div1000 ⟨n, 0⟩)
  | .float d => .float (Dec.div1000 d)
  | .inf => .inf
  | .ninf => .ninf
  | .nan => .nan
  | .na => .na
  | .str s => .str s

/-- Step 8 on one row: `df[numeric_cols] = df[numeric_cols] / UNIT_DIVISOR`
(`src/app.py` lines 289-290). -/
def divideRow (header : List String) (r : List Cell) : List Cell :=
  (header.zip r).map (fun p => if ROUTE_COLS.contains p.1 then divideCell p.2 else p.2)

/-- Step 8 on the table. -/
def divideT (t : Table) : Table :=
  ⟨t.header, t.rows.map (divideRow t.header)⟩

/-- Steps 4-8: everything `load_data` does to the working copy `df` after
parsing. -/
def normalizeT (t : Table) : Except String Table :=
  match dropGlobalT (coerceT (projectT (replaceUnknownT t))) with
  | .error e => .error e
  | .ok t4 => .ok (divideT t4)

/-- The whole pipeline `load_data`, from the raw bytes of
`steel_routes.csv` to the `(raw_df, df)` pair (`src/app.py` lines 253-292). -/
def load_data (bs : List Nat) : Except String (Table × Table) :=
  match read_csv (cleanText (decodeBytes bs)) with
  | .error e => .error e
  | .ok raw_df =>
    match normalizeT raw_df with
    | .error e => .error e
    | .ok df => .ok (raw_df, df)

/-- The row transformation steps 4-8 apply to every surviving row, as a
single function of the raw header. -/
def rowPipeline (header : List String) (r : List Cell) : List Cell :=
  divideRow (presentOf header)
    (coerceRow (presentOf header) (projectRow header (replaceRow r)))

/-- UTF-8 bytes of an ASCII string (all concrete inputs below are ASCII). -/
def strToBytes (s : String) : List Nat :=
  s.data.map Char.toNat

/-- Python `str.lower()` on a whole string (ASCII range). -/
def pyLower (s : String) : String :=
  String.mk (s.data.map lowerChar)

/-- Rational value of a numeric cell (int64 or finite float64). -/
def cellValueQ : Cell → Option ℚ
  | .int n => some (n : ℚ)
  | .float d => some d.toRat
  | _ => none

/-! ## Supporting lemmas -/

theorem Dec.toRat_normAux (n : Int) (e : Nat) :
    (Dec.normAux n e).toRat = (n : ℚ) / 10 ^ e := by
  induction e generalizing n with
  | zero => rfl
  | succ e ih =>
    rw [Dec.normAux]
    split
    · subst n; simp [Dec.toRat]
    · split
      · rename_i h10
        rw [ih]
        have hdvd : (10 : Int) ∣ n := Int.dvd_of_emod_eq_zero h10
        obtain ⟨k, rfl⟩ := hdvd
        rw [Int.mul_ediv_cancel_left _ (by norm_num)]
        push_cast
        rw [pow_succ]
        field_simp
        ring
      · rfl

theorem Dec.toRat_div1000 (d : Dec) : d.div1000.toRat = d.toRat / 1000 := by
  rw [Dec.div1000, Dec.toRat_normAux, Dec.toRat, pow_add]
  norm_num
  ring

theorem load_data_decomp (bs : List Nat) (raw norm : Table)
    (h : load_data bs = .ok (raw, norm)) :
    read_csv (cleanText (decodeBytes bs)) = .ok raw ∧ normalizeT raw = .ok norm := by
  unfold load_data at h
  cases h1 : read_csv (cleanText (decodeBytes bs)) with
  | error e => rw [h1] at h; simp at h
  | ok t =>
    rw [h1] at h
    dsimp only at h
    cases h2 : normalizeT t with
    | error e => rw [h2] at h; simp at h
    | ok u =>
      rw [h2] at h
      simp only [Except.ok.injEq, Prod.mk.injEq] at h
      obtain ⟨hraw, hnorm⟩ := h
      subst hraw; subst hnorm
      exact ⟨rfl, h2⟩

theorem normalizeT_decomp (t norm : Table) (h : normalizeT t = .ok norm) :
    ∃ t4, dropGlobalT (coerceT (projectT (replaceUnknownT t))) = .ok t4 ∧
      norm = divideT t4 := by
  unfold normalizeT at h
  cases h1 : dropGlobalT (coerceT (projectT (replaceUnknownT t))) with
  | error e => rw [h1] at h; simp at h
  | ok t4 =>
    rw [h1] at h
    dsimp only at h
    simp only [Except.ok.injEq] at h
    exact ⟨t4, rfl, h.symm⟩

theorem dropGlobalT_header (t t4 : Table) (h : dropGlobalT t = .ok t4) :
    t4.header = t.header := by
  unfold dropGlobalT at h
  split at h
  · split at h
    · exact absurd h (by simp)
    · simp only [Except.ok.injEq] at h; subst h; rfl
  · simp only [Except.ok.injEq] at h; subst h; rfl

theorem dropGlobalT_rows_sublist (t t4 : Table) (h : dropGlobalT t = .ok t4) :
    t4.rows.Sublist t.rows := by
  unfold dropGlobalT at h
  split at h
  · split at h
    · exact absurd h (by simp)
    · simp only [Except.ok.injEq] at h; subst h
      exact List.filter_sublist _
  · simp only [Except.ok.injEq] at h; subst h
    exact List.Sublist.refl _

theorem contains_iff_mem (l : List String) (a : String) :
    l.contains a = true ↔ a ∈ l := by
  show l.elem a = true ↔ a ∈ l
  exact List.elem_iff

theorem toNumericCell_ne_str (x s : String) : toNumericCell x ≠ Cell.str s := by
  unfold toNumericCell
  cases hp : floatify x with
  | none => simp
  | some v => cases v <;> simp

theorem coerceCell_ne_str (c : Cell) (s : String) : coerceCell c ≠ Cell.str s := by
  unfold coerceCell coerceString
  exact toNumericCell_ne_str _ _

theorem divideCell_str (c : Cell) (s : String) (h : divideCell c = Cell.str s) :
    c = Cell.str s := by
  cases c <;> simp_all [divideCell]

theorem expected_not_route (a : String) (hmem : a ∈ expectedCols)
    (hr : ¬ ROUTE_COLS.contains a = true) : a = "Country" := by
  rcases List.mem_cons.mp hmem with hc | hrt
  · exact hc
  · exact absurd ((contains_iff_mem _ _).mpr hrt) hr

theorem colCell_cons (a : String) (hd : List String) (c : Cell) (r : List Cell)
    (nm : String) :
    colCell (a :: hd) (c :: r) nm = if a = nm then some c else colCell hd r nm := by
  by_cases h : a = nm <;>
    simp [colCell, List.zip_cons_cons, List.findSome?_cons, h]

theorem colCell_some_mem (hd : List String) (r : List Cell) (nm : String) (c : Cell)
    (h : colCell hd r nm = some c) : nm ∈ hd := by
  induction hd generalizing r with
  | nil => simp [colCell] at h
  | cons a hd ih =>
    cases r with
    | nil => simp [colCell] at h
    | cons b r =>
      rw [colCell_cons] at h
      by_cases hnm : a = nm
      · exact hnm ▸ List.mem_cons_self a hd
      · rw [if_neg hnm] at h
        exact List.mem_cons_of_mem a (ih r h)

theorem coerceRow_cons (a : String) (hd : List String) (c : Cell) (r : List Cell) :
    coerceRow (a :: hd) (c :: r) =
      (if ROUTE_COLS.contains a then coerceCell c else c) :: coerceRow hd r := by
  simp [coerceRow, List.zip_cons_cons]

theorem coerceRow_no_str (ph : List String) (r : List Cell)
    (hsub : ∀ x ∈ ph, x ∈ expectedCols) (hnc : "Country" ∉ ph) (s : String) :
    Cell.str s ∉ coerceRow ph r := by
  intro hmem
  unfold coerceRow at hmem
  obtain ⟨⟨a, c⟩, hp, heq⟩ := List.mem_map.mp hmem
  by_cases hr : ROUTE_COLS.contains a = true
  · rw [if_pos hr] at heq
    exact coerceCell_ne_str c s heq
  · have ha : a ∈ ph := (List.of_mem_zip hp).1
    exact hnc (expected_not_route a (hsub a ha) hr ▸ ha)

theorem coerceRow_global_country (ph : List String) (r : List Cell)
    (hnd : ph.Nodup) (hsub : ∀ x ∈ ph, x ∈ expectedCols)
    (hmem : Cell.str "Global" ∈ coerceRow ph r) :
    countryCell ph (coerceRow ph r) = some (Cell.str "Global") := by
  induction ph generalizing r with
  | nil => simp [coerceRow] at hmem
  | cons a ph ih =>
    cases r with
    | nil => simp [coerceRow] at hmem
    | cons c r =>
      rw [coerceRow_cons] at hmem ⊢
      rw [countryCell, colCell_cons]
      rcases List.mem_cons.mp hmem with hhead | htail
      · by_cases hr : ROUTE_COLS.contains a = true
        · rw [if_pos hr] at hhead
          exact absurd hhead.symm (coerceCell_ne_str c "Global")
        · have ha : a = "Country" :=
            expected_not_route a (hsub a (List.mem_cons_self a ph)) hr
          rw [if_neg hr] at hhead
          rw [if_pos ha, if_neg hr, ← hhead]
      · by_cases hc : a = "Country"
        · subst hc
          have hnc : "Country" ∉ ph := (List.nodup_cons.mp hnd).1
          exact absurd htail
            (coerceRow_no_str ph r (fun x hx => hsub x (List.mem_cons_of_mem _ hx)) hnc "Global")
        · rw [if_neg hc]
          exact ih r (List.nodup_cons.mp hnd).2
            (fun x hx => hsub x (List.mem_cons_of_mem _ hx)) htail

theorem presentOf_nodup (hd : List String) : (presentOf hd).Nodup :=
  List.Nodup.filter _ (by decide)

theorem presentOf_subset (hd : List String) (x : String) (h : x ∈ presentOf hd) :
    x ∈ expectedCols :=
  (List.mem_filter.mp h).1

theorem divideRow_str_mem (hd : List String) (r : List Cell) (s : String)
    (h : Cell.str s ∈ divideRow hd r) : Cell.str s ∈ r := by
  unfold divideRow at h
  obtain ⟨⟨a, c⟩, hp, heq⟩ := List.mem_map.mp h
  have hcr : c ∈ r := (List.of_mem_zip hp).2
  by_cases hra : ROUTE_COLS.contains a = true
  · rw [if_pos hra] at heq
    rwa [divideCell_str c s heq] at hcr
  · rw [if_neg hra] at heq
    rw [← heq]
    exact hcr

theorem dropGlobalT_no_global (t2 t4 : Table)
    (hnd : t2.header.Nodup) (hsub : ∀ x ∈ t2.header, x ∈ expectedCols)
    (h : dropGlobalT (coerceT t2) = .ok t4) :
    ∀ r ∈ t4.rows, Cell.str "Global" ∉ r := by
  intro r hr hmem
  unfold dropGlobalT at h
  split at h
  · rename_i hguard
    split at h
    · simp at h
    · simp only [Except.ok.injEq] at h
      subst h
      obtain ⟨hr3, hpred⟩ := List.mem_filter.mp hr
      obtain ⟨r2, hr2, rfl⟩ := List.mem_map.mp hr3
      have hcc := coerceRow_global_country t2.header r2 hnd hsub hmem
      simp only [decide_eq_true_eq] at hpred
      exact hpred hcc
  · rename_i hguard
    simp only [Except.ok.injEq] at h
    subst h
    obtain ⟨r2, hr2, rfl⟩ := List.mem_map.mp hr
    have hcc := coerceRow_global_country t2.header r2 hnd hsub hmem
    apply hguard
    rw [Bool.and_eq_true]
    constructor
    · exact (contains_iff_mem _ _).mpr (colCell_some_mem _ _ _ _ hcc)
    · rw [List.any_eq_true]
      refine ⟨coerceRow t2.header r2, List.mem_map.mpr ⟨r2, hr2, rfl⟩, ?_⟩
      simp only [decide_eq_true_eq]
      show Option.map cellToPyStr (countryCell t2.header (coerceRow t2.header r2)) = some "Global"
      rw [hcc]
      rfl

theorem normalizeT_header (t norm : Table) (h : normalizeT t = .ok norm) :
    norm.header = presentOf t.header := by
  obtain ⟨t4, hdrop, rfl⟩ := normalizeT_decomp t norm h
  exact dropGlobalT_header _ _ hdrop

theorem normalizeT_rows_sublist (t norm : Table) (h : normalizeT t = .ok norm) :
    norm.rows.Sublist (t.rows.map (rowPipeline t.header)) := by
  obtain ⟨t4, hdrop, rfl⟩ := normalizeT_decomp t norm h
  have hsub := dropGlobalT_rows_sublist _ _ hdrop
  have hhd : t4.header = presentOf t.header := dropGlobalT_header _ _ hdrop
  show (t4.rows.map (divideRow t4.header)).Sublist _
  rw [hhd]
  have hmap := hsub.map (divideRow (presentOf t.header))
  have hre : ((coerceT (projectT (replaceUnknownT t))).rows).map (divideRow (presentOf t.header))
      = t.rows.map (rowPipeline t.header) := by
    show ((((t.rows.map replaceRow).map (projectRow t.header)).map
      (coerceRow (presentOf t.header))).map (divideRow (presentOf t.header))) = _
    simp only [List.map_map]
    rfl
  exact hre ▸ hmap

set_option maxRecDepth 40000

/-- Concrete checks of `floatify` against the behaviours that separate it
from Python `float`: underscored digits and out-of-range exponents coerce
to NaN, in-range-exponent overflow gives an infinity, the four infinity
literals are accepted as written, and case or sign variants of them are
not. -/
theorem floatify_examples :
    toNumericCell "1_000" = Cell.nan ∧ toNumericCell "1e999" = Cell.nan ∧
    toNumericCell "9e308" = Cell.inf ∧ toNumericCell "-9e308" = Cell.ninf ∧
    toNumericCell "inf" = Cell.inf ∧ toNumericCell "Infinity" = Cell.inf ∧
    toNumericCell "-inf" = Cell.ninf ∧ toNumericCell "-Infinity" = Cell.ninf ∧
    toNumericCell "INF" = Cell.nan ∧ toNumericCell "+inf" = Cell.nan ∧
    toNumericCell "infinity" = Cell.nan := by
  refine ⟨rfl, rfl, ?_, ?_, rfl, rfl, rfl, rfl, rfl, rfl, rfl⟩ <;> decide

/-! ## Concrete inputs -/

/-- Scenario A input bytes (spec section 8). -/
def scenAbytes : List Nat :=
  strToBytes "Country,Pig iron produced (ttpa),DRI produced (ttpa)\nGlobal,1.000.000,500.000\nBrazil,40.000,10.000"

/-- The raw table `read_csv` builds from Scenario A: the pig-iron column
keeps its strings (`1.000.000` is not float-parseable), while the DRI column
is all float-parseable and is inferred to float64. -/
def scenAraw : Table :=
  ⟨["Country", "Pig iron produced (ttpa)", "DRI produced (ttpa)"],
   [[.str "Global", .str "1.000.000", .float ⟨500, 0⟩],
    [.str "Brazil", .str "40.000", .float ⟨10, 0⟩]]⟩

/-- The normalized table the code produces on Scenario A: pig iron 40.0 as
the spec expects, DRI 0.1 where the spec expects 10.0. -/
def scenAnorm : Table :=
  ⟨["Country", "Pig iron produced (ttpa)", "DRI produced (ttpa)"],
   [[.str "Brazil", .float ⟨40, 0⟩, .float ⟨1, 1⟩]]⟩

/-- Scenario B input bytes: a numeric field holding `unknown`. -/
def scenBbytes : List Nat :=
  strToBytes "Country,Pig iron produced (ttpa)\nBrazil,unknown"

/-- Raw table for Scenario B. -/
def scenBraw : Table :=
  ⟨["Country", "Pig iron produced (ttpa)"], [[.str "Brazil", .str "unknown"]]⟩

/-- Normalized table for Scenario B: the `unknown` field is the missing
marker, not 0.0. -/
def scenBnorm : Table :=
  ⟨["Country", "Pig iron produced (ttpa)"], [[.str "Brazil", .nan]]⟩

/-- Scenario C input bytes: the field text `1.234.567`. -/
def scenCbytes : List Nat :=
  strToBytes "Country,Pig iron produced (ttpa)\nX,1.234.567"

/-- Raw table for Scenario C. -/
def scenCraw : Table :=
  ⟨["Country", "Pig iron produced (ttpa)"], [[.str "X", .str "1.234.567"]]⟩

/-- Normalized table for Scenario C: 1234567 / 1000 = 1234.567. -/
def scenCnorm : Table :=
  ⟨["Country", "Pig iron produced (ttpa)"], [[.str "X", .float ⟨1234567, 3⟩]]⟩

/-- Input with the DRI route column entirely absent. -/
def c7bytes : List Nat :=
  strToBytes "Country,Pig iron produced (ttpa)\nBrazil,40000"

/-- Raw table for the missing-column input. -/
def c7raw : Table :=
  ⟨["Country", "Pig iron produced (ttpa)"], [[.str "Brazil", .int 40000]]⟩

/-- Normalized table for the missing-column input: the DRI column is simply
absent, the pipeline succeeds. -/
def c7norm : Table :=
  ⟨["Country", "Pig iron produced (ttpa)"], [[.str "Brazil", .float ⟨40, 0⟩]]⟩

/-- Input whose Country field is `" Global"` (leading space). -/
def c3bytes : List Nat :=
  strToBytes "Country\n Global"

/-- Raw and normalized table for the `" Global"` input: the row is kept,
because the filter compares against `"Global"` without trimming. -/
def c3tab : Table :=
  ⟨["Country"], [[.str " Global"]]⟩

/-- Input whose Country field is `"Unknown"` (capital U). -/
def c4bytes : List Nat :=
  strToBytes "Country\nUnknown"

/-- Raw and normalized table for the `"Unknown"` input: the replacement is
case-sensitive, so the field survives. -/
def c4tab : Table :=
  ⟨["Country"], [[.str "Unknown"]]⟩


/-! ## Claims -/

/-- C1: evaluation of the pipeline at the Scenario A input.  The normalized
output has exactly one row (`Brazil`) with pig-iron value 40.0, as the claim
states, but the DRI value is 0.1 rather than the claimed 10.0: `read_csv`
type inference converts the all-float-parseable DRI column (`500.000`,
`10.000`) to float64 before the cleaning loop, `astype(str)` then renders
`10.0`, the full-stop strip turns that into `100`, and division by 1000
yields 0.1. -/
theorem scenarioA_evaluation :
    load_data scenAbytes = .ok (scenAraw, scenAnorm) ∧
    Dec.toRat ⟨1, 1⟩ = 1 / 10 ∧ Dec.toRat ⟨1, 1⟩ ≠ 10 :=
  ⟨rfl, by norm_num [Dec.toRat], by norm_num [Dec.toRat]⟩

/-- C3 (amended): whenever the pipeline succeeds, no cell of the normalized
output is the exact string `"Global"` — in particular no row whose Country
field is exactly `"Global"` survives.  (Rows whose Country only equals
`"Global"` after trimming are retained; see the counterexample.) -/
theorem no_exact_global_row : ∀ (bs : List Nat) (raw norm : Table),
    load_data bs = .ok (raw, norm) → ∀ r ∈ norm.rows, Cell.str "Global" ∉ r := by
  intro bs raw norm h r hr hmem
  obtain ⟨hparse, hnorm⟩ := load_data_decomp bs raw norm h
  obtain ⟨t4, hdrop, rfl⟩ := normalizeT_decomp _ _ hnorm
  obtain ⟨r4, hr4, rfl⟩ := List.mem_map.mp hr
  exact dropGlobalT_no_global (projectT (replaceUnknownT raw)) t4
    (presentOf_nodup raw.header)
    (fun x hx => presentOf_subset raw.header x hx)
    hdrop r4 hr4 (divideRow_str_mem _ _ _ hmem)

/-- Witness for C3 at the Scenario A input. -/
theorem no_exact_global_row_witness :
    Cell.str "Global" ∉ [Cell.str "Brazil", Cell.float ⟨40, 0⟩, Cell.float ⟨1, 1⟩] :=
  no_exact_global_row scenAbytes scenAraw scenAnorm rfl
    [Cell.str "Brazil", Cell.float ⟨40, 0⟩, Cell.float ⟨1, 1⟩] (by simp [scenAnorm])

/-- C3 counterexample: a Country field `" Global"` (a whitespace variant
that trimming would map to `"Global"`) is retained in the normalized
output, so the claimed trim-insensitive exclusion fails. -/
theorem global_trim_variant_retained_cex :
    load_data c3bytes = .ok (c3tab, c3tab) ∧
    c3tab.rows = [[Cell.str " Global"]] ∧ pyStrip " Global" = "Global" :=
  ⟨rfl, rfl, rfl⟩

/-- C4 (amended): the missing-value replacement step maps a string field to
the missing marker exactly when the field is the untrimmed, case-sensitive
literal `"unknown"`; a numeric field holding exactly `unknown` is the
missing marker (not 0.0) in the normalized output (Scenario B). -/
theorem unknown_replacement_exact :
    (∀ s : String, replaceCell (Cell.str s) = Cell.na ↔ s = "unknown") ∧
    load_data scenBbytes = .ok (scenBraw, scenBnorm) := by
  constructor
  · intro s
    constructor
    · intro h
      by_cases hs : s = "unknown"
      · exact hs
      · rw [replaceCell, if_neg (by simp [hs])] at h
        exact absurd h (by simp)
    · intro h
      subst h
      rfl
  · rfl

/-- Witness for C4 at the concrete field `"unknown"`. -/
theorem unknown_replacement_exact_witness :
    replaceCell (Cell.str "unknown") = Cell.na :=
  (unknown_replacement_exact.1 "unknown").mpr rfl

/-- C4 counterexample: the field `"Unknown"`, whose trimmed value equals
`"unknown"` case-insensitively, is not replaced — it survives into the
normalized output as a plain string, so the claimed case-insensitive
replacement fails. -/
theorem unknown_case_variant_retained_cex :
    load_data c4bytes = .ok (c4tab, c4tab) ∧
    pyLower (pyStrip "Unknown") = "unknown" ∧
    Cell.isMissing (Cell.str "Unknown") = false :=
  ⟨rfl, rfl, rfl⟩

/-- C5: unit-conversion round trip.  Whenever step 8 produces a finite
float, multiplying it back by the unit divisor 1000 recovers exactly the
numeric value the cell held before rescaling (the parsed raw numeral); and
Scenario C: the field text `1.234.567` coerces to the raw numeral 1234567
and normalizes to 1234.567. -/
theorem unit_conversion_round_trip :
    (∀ (c : Cell) (d : Dec), divideCell c = Cell.float d →
      cellValueQ c = some (d.toRat * 1000)) ∧
    coerceString "1.234.567" = Cell.float ⟨1234567, 0⟩ ∧
    load_data scenCbytes = .ok (scenCraw, scenCnorm) ∧
    Dec.toRat ⟨1234567, 3⟩ = 1234.567 := by
  refine ⟨?_, rfl, rfl, by norm_num [Dec.toRat]⟩
  intro c d h
  cases c with
  | int n =>
    simp only [divideCell, Cell.float.injEq] at h
    subst h
    simp only [cellValueQ, Option.some.injEq]
    rw [Dec.toRat_div1000]
    have hn : Dec.toRat ⟨n, 0⟩ = (n : ℚ) := by simp [Dec.toRat]
    rw [hn]
    field_simp
  | float d0 =>
    simp only [divideCell, Cell.float.injEq] at h
    subst h
    simp only [cellValueQ, Option.some.injEq]
    rw [Dec.toRat_div1000]
    field_simp
  | str s => simp [divideCell] at h
  | inf => simp [divideCell] at h
  | ninf => simp [divideCell] at h
  | nan => simp [divideCell] at h
  | na => simp [divideCell] at h

/-- Witness for C5 at the concrete cell `int 7`. -/
theorem unit_conversion_round_trip_witness :
    cellValueQ (Cell.int 7) = some (Dec.toRat ⟨7, 3⟩ * 1000) :=
  unit_conversion_round_trip.1 (Cell.int 7) ⟨7, 3⟩ (by decide)

/-- C6: byte decoding is total: for every byte buffer, either strict UTF-8
succeeds and gives the decoded text, or the CP1252-with-replacement fallback
(total by construction) gives it; and Scenario E: the byte 0xFF, invalid as
UTF-8, decodes to `ÿ` via the fallback instead of aborting. -/
theorem byte_decoding_total :
    (∀ bs : List Nat,
      (∃ cs, utf8Decode bs = some cs ∧ decodeBytes bs = String.mk cs) ∨
      (utf8Decode bs = none ∧ decodeBytes bs = cp1252Replace bs)) ∧
    utf8Decode [0xff] = none ∧ decodeBytes [0xff] = "ÿ" := by
  refine ⟨?_, rfl, rfl⟩
  intro bs
  cases h : utf8Decode bs with
  | some cs => left; exact ⟨cs, rfl, by simp [decodeBytes, h]⟩
  | none => right; exact ⟨rfl, by simp [decodeBytes, h]⟩

/-- Witness for C6 at the concrete byte buffer `[0xff]`. -/
theorem byte_decoding_total_witness :
    (∃ cs, utf8Decode [0xff] = some cs ∧ decodeBytes [0xff] = String.mk cs) ∨
    (utf8Decode [0xff] = none ∧ decodeBytes [0xff] = cp1252Replace [0xff]) :=
  byte_decoding_total.1 [0xff]

/-- C7: schema degradation.  Whenever the pipeline succeeds, the normalized
column set is exactly the fixed expected schema filtered to the columns
present in the parsed header, in schema order; and on an input missing the
DRI route column entirely the pipeline succeeds, producing a table without
that column. -/
theorem schema_projection_degrades :
    (∀ (bs : List Nat) (raw norm : Table), load_data bs = .ok (raw, norm) →
      norm.header = presentOf raw.header) ∧
    load_data c7bytes = .ok (c7raw, c7norm) ∧
    c7norm.header = ["Country", "Pig iron produced (ttpa)"] := by
  refine ⟨?_, rfl, rfl⟩
  intro bs raw norm h
  exact normalizeT_header raw norm (load_data_decomp bs raw norm h).2

/-- Witness for C7 at the concrete missing-column input. -/
theorem schema_projection_degrades_witness :
    c7norm.header = presentOf c7raw.header :=
  schema_projection_degrades.1 c7bytes c7raw c7norm rfl

/-- C8: determinism.  The pipeline is a pure function of its input bytes
(schema and divisor are fixed constants of the embedding): two invocations
on equal byte content return equal `(raw, normalized)` pairs, value for
value, missing markers included. -/
theorem pipeline_deterministic :
    ∀ (bs bs2 : List Nat) (raw norm raw2 norm2 : Table),
      bs = bs2 → load_data bs = .ok (raw, norm) → load_data bs2 = .ok (raw2, norm2) →
      raw = raw2 ∧ norm = norm2 := by
  intro bs bs2 raw norm raw2 norm2 heq h1 h2
  subst heq
  rw [h1] at h2
  simp only [Except.ok.injEq, Prod.mk.injEq] at h2
  exact h2

/-- Witness for C8 at the Scenario B input. -/
theorem pipeline_deterministic_witness : scenBraw = scenBraw ∧ scenBnorm = scenBnorm :=
  pipeline_deterministic scenBbytes scenBbytes scenBraw scenBnorm scenBraw scenBnorm
    rfl rfl rfl

/-- C9: frame property of the raw table.  Whenever the pipeline succeeds,
the returned raw table is exactly the step-3 parse of the cleaned decoded
bytes, and the normalized table is produced from it by the separate steps
4-8 (`normalizeT`), which build a new table and leave the raw one
untouched. -/
theorem raw_table_frame :
    ∀ (bs : List Nat) (raw norm : Table), load_data bs = .ok (raw, norm) →
      read_csv (cleanText (decodeBytes bs)) = .ok raw ∧ normalizeT raw = .ok norm :=
  load_data_decomp

/-- Witness for C9 at the Scenario A input. -/
theorem raw_table_frame_witness :
    read_csv (cleanText (decodeBytes scenAbytes)) = .ok scenAraw ∧
    normalizeT scenAraw = .ok scenAnorm :=
  raw_table_frame scenAbytes scenAraw scenAnorm rfl

/-- C10: row order.  Whenever the pipeline succeeds, the normalized rows are
a sublist — same relative order, no reordering — of the raw rows with the
per-row steps 4-8 transformation applied; only the Global filter removes
rows. -/
theorem row_order_sublist :
    ∀ (bs : List Nat) (raw norm : Table), load_data bs = .ok (raw, norm) →
      norm.rows.Sublist (raw.rows.map (rowPipeline raw.header)) := by
  intro bs raw norm h
  exact normalizeT_rows_sublist raw norm (load_data_decomp bs raw norm h).2

/-- Witness for C10 at the Scenario A input. -/
theorem row_order_sublist_witness :
    scenAnorm.rows.Sublist (scenAraw.rows.map (rowPipeline scenAraw.header)) :=
  row_order_sublist scenAbytes scenAraw scenAnorm rfl
